import Mathlib

/-!
Shallow embedding of src/asterl1t.py: ASTER L1T radiance/reflectance
processing (process_aster_dataset and its module-level lookup tables).

Modelling conventions.

* Floating-point values are modelled as Option-wrapped exact numbers:
  a NaN is none, any other value is some x.  Raw pixel values (the
  contents of 2-dimensional numpy buffers) are Option ℚ so that the
  exact-zero no-data test of line 190 is decidable; computed radiance
  and reflectance values are Option ℝ, since the conversion involves
  pi, sin and cos.
* The GDAL/rasterio collaborators are opaque inputs.  A Scene record
  carries what process_aster_dataset reads from them: the band labels
  of the ImageData sub-datasets (rasters), the parsed GAIN metadata
  pairs (gains), solar_direction[1] (solarElevation), the reversed
  UPPERLEFT/LOWERRIGHT corner pairs (lon, lat), each band's native
  shape (srcShape), and the CALENDARDATE string.  The reprojection
  primitive rasterio.warp.reproject is an oracle (reproj) supplied by
  the scene: it receives the band, the derived source transform and
  the prior contents of the destination buffer, and yields the
  buffer's contents after the call.  The fixed arguments source
  array, dst_transform, dst_crs and resampling method are absorbed
  into the oracle, since the Python code only forwards them to it.
* In-place numpy mutation is made explicit through a small heap of
  numbered 2-dimensional buffers.  The caller's destination array
  lives in the heap at an id the caller passes in; destination.copy()
  on line 178 is an allocation of a fresh buffer, and reproject's
  in-place write on lines 180-188 is a heap write to that fresh id.
* Python dict lookups return Option; a KeyError surfaces as
  Except.error with a message naming the dict and key, and the
  datetime construction of lines 153-155 surfaces a malformed or
  out-of-range date as Except.error.  numpy's uint8 cast of the date
  fields wraps modulo 256 as the 2017-era numpy did.
-/

/-- Band labels in output-slot order (source list band_index, line 31). -/
def band_index : List String :=
  ["1", "2", "3B", "3N", "4", "5", "6", "7", "8", "9", "10", "11", "12", "13", "14"]

/-- Gain-setting column labels (source list ucc_header, line 30). -/
def ucc_header : List String := ["HGH", "NOR", "LG1", "LG2"]

/-- Unit-conversion-coefficient matrix (source matrix ucc, lines 12-28),
as a function from band label and gain label to an entry; a NaN entry of
the matrix is none. -/
def ucc (b g : String) : Option ℝ :=
  match b, g with
  | "1", "HGH" => some 0.676
  | "1", "NOR" => some 1.688
  | "1", "LG1" => some 2.25
  | "2", "HGH" => some 0.708
  | "2", "NOR" => some 1.415
  | "2", "LG1" => some 1.89
  | "3B", "HGH" => some 0.423
  | "3B", "NOR" => some 0.862
  | "3B", "LG1" => some 1.15
  | "3N", "HGH" => some 0.423
  | "3N", "NOR" => some 0.862
  | "3N", "LG1" => some 1.15
  | "4", "HGH" => some 0.1087
  | "4", "NOR" => some 0.2174
  | "4", "LG1" => some 0.2900
  | "4", "LG2" => some 0.2900
  | "5", "HGH" => some 0.0348
  | "5", "NOR" => some 0.0696
  | "5", "LG1" => some 0.0925
  | "5", "LG2" => some 0.4090
  | "6", "HGH" => some 0.0313
  | "6", "NOR" => some 0.0625
  | "6", "LG1" => some 0.0830
  | "6", "LG2" => some 0.3900
  | "7", "HGH" => some 0.0299
  | "7", "NOR" => some 0.0597
  | "7", "LG1" => some 0.0795
  | "7", "LG2" => some 0.3320
  | "8", "HGH" => some 0.0209
  | "8", "NOR" => some 0.0417
  | "8", "LG1" => some 0.0556
  | "8", "LG2" => some 0.2450
  | "9", "HGH" => some 0.0159
  | "9", "NOR" => some 0.0318
  | "9", "LG1" => some 0.0424
  | "9", "LG2" => some 0.2650
  | "10", "NOR" => some 0.006822
  | "11", "NOR" => some 0.006780
  | "12", "NOR" => some 0.006590
  | "13", "NOR" => some 0.005693
  | "14", "NOR" => some 0.005225
  | _, _ => none

/-- The nested dict ucc_dict (line 33): ucc_dict[b][g].  The outer none
is a KeyError (band not a table row or gain not a table column); the
inner Option is the matrix entry, none for a NaN entry. -/
def ucc_dict (b g : String) : Option (Option ℝ) :=
  if b ∈ band_index ∧ g ∈ ucc_header then some (ucc b g) else none

/-- Per-band native ground resolution (source resolution_dict, lines 35-36). -/
def resolution_dict (b : String) : Option ℕ :=
  match b with
  | "1" => some 15 | "2" => some 15 | "3B" => some 15 | "3N" => some 15
  | "4" => some 30 | "5" => some 30 | "6" => some 30 | "7" => some 30
  | "8" => some 30 | "9" => some 30
  | "10" => some 90 | "11" => some 90 | "12" => some 90 | "13" => some 90
  | "14" => some 90
  | _ => none

/-- Band label to output-slot index (source index_dict, line 38);
none is a KeyError. -/
def index_dict (b : String) : Option ℕ :=
  match b with
  | "1" => some 0 | "2" => some 1 | "3B" => some 2 | "3N" => some 3
  | "4" => some 4 | "5" => some 5 | "6" => some 6 | "7" => some 7
  | "8" => some 8 | "9" => some 9 | "10" => some 10 | "11" => some 11
  | "12" => some 12 | "13" => some 13 | "14" => some 14
  | _ => none

/-- Solar spectral irradiance table (source irradiance_dict, lines 40-50);
none is a KeyError: only 9 of the 15 bands have an entry, and band "3B"
has none. -/
def irradiance_dict (b : String) : Option ℝ :=
  match b with
  | "1" => some 1848.99
  | "2" => some 1555.74
  | "3N" => some 1119.47
  | "4" => some 231.25
  | "5" => some 79.81
  | "6" => some 74.99
  | "7" => some 68.66
  | "8" => some 59.74
  | "9" => some 56.92
  | _ => none

/-- Gregorian leap-year rule, as Python's datetime uses. -/
def isLeap (y : ℕ) : Bool := (y % 4 == 0 && y % 100 != 0) || (y % 400 == 0)

/-- Month lengths of year y, as Python's datetime uses. -/
def monthLengths (y : ℕ) : List ℕ :=
  [31, if isLeap y then 29 else 28, 31, 30, 31, 30, 31, 31, 30, 31, 30, 31]

/-- datetime.datetime(y, m, d).timetuple().tm_yday: the day-of-year of a
valid proleptic-Gregorian date, none when datetime would raise (year
outside [1, 9999], month outside [1, 12], or day outside the month). -/
def dayOfYearOfDate (y m d : ℕ) : Option ℕ :=
  if 1 ≤ y ∧ y ≤ 9999 ∧ 1 ≤ m ∧ m ≤ 12 ∧ 1 ≤ d ∧ d ≤ (monthLengths y).getD (m - 1) 0 then
    some (((monthLengths y).take (m - 1)).sum + d)
  else none

/-- Decimal value of a digit string, none when empty or non-numeric;
the parsing a numpy integer cast applies to a str argument. -/
def digitsToNat (cs : List Char) : Option ℕ :=
  if cs ≠ [] ∧ cs.all (fun c => c.isDigit) then
    some (cs.foldl (fun n c => 10 * n + (c.toNat - 48)) 0)
  else none

/-- Lines 153-154: slice CALENDARDATE into [0:4], [4:6], [6:] and apply
np.uint8 to each slice, which parses the decimal string and wraps the
value modulo 256; none when a slice is not a decimal numeral. -/
def parseDate (s : String) : Option (ℕ × ℕ × ℕ) :=
  match digitsToNat (s.data.take 4), digitsToNat ((s.data.drop 4).take 2),
      digitsToNat (s.data.drop 6) with
  | some y, some m, some d => some (y % 256, m % 256, d % 256)
  | _, _, _ => none

/-- Lines 153-155: day-of-year of the CALENDARDATE metadata string. -/
def doyOfCalendarDate (s : String) : Option ℕ :=
  match parseDate s with
  | some (y, m, d) => dayOfYearOfDate y m d
  | none => none

/-- np.radians / np.deg2rad. -/
noncomputable def deg2rad (x : ℝ) : ℝ := x * Real.pi / 180

/-- Line 157: Earth-Sun distance from day-of-year,
d = 1 - 0.01672 * cos(radians(0.9856 * (doy - 4))). -/
noncomputable def earthSunDistance (doy : ℕ) : ℝ :=
  1 - 0.01672 * Real.cos (deg2rad (0.9856 * ((doy : ℝ) - 4)))

/-- A 6-coefficient affine transform as rasterio's Affine
(a, b, c, d, e, f): col, row maps to (a * col + b * row + c,
d * col + e * row + f). -/
structure Affine6 where
  a : ℝ
  b : ℝ
  c : ℝ
  d : ℝ
  e : ℝ
  f : ℝ

/-- rasterio.transform.from_bounds(west, south, east, north, width,
height) = translation(west, north) * scale((east - west) / width,
(south - north) / height).  It performs no validation: degenerate
bounds yield a transform, never an error. -/
noncomputable def from_bounds (west south east north : ℝ) (width height : ℕ) : Affine6 :=
  ⟨(east - west) / (width : ℝ), 0, west, 0, (south - north) / (height : ℝ), north⟩

/-- A heap of numbered 2-dimensional numpy buffers: ids below next are
allocated.  mem gives each buffer's contents (row, column to value). -/
structure Heap where
  next : ℕ
  mem : ℕ → ℕ → ℕ → Option ℚ

/-- Allocate a fresh buffer holding v, returning its id (numpy array
creation, e.g. destination.copy() on line 178). -/
def Heap.alloc (h : Heap) (v : ℕ → ℕ → Option ℚ) : ℕ × Heap :=
  (h.next, ⟨h.next + 1, fun bid => if bid = h.next then v else h.mem bid⟩)

/-- Overwrite buffer bid with contents v (an in-place numpy write, as
rasterio.warp.reproject performs on its destination argument). -/
def Heap.write (h : Heap) (bid : ℕ) (v : ℕ → ℕ → Option ℚ) : Heap :=
  ⟨h.next, fun i => if i = bid then v else h.mem i⟩

/-- The 3-dimensional output array aster_array (rows, columns, bands);
it is freshly allocated by lines 139-142, so it is kept as a value
rather than a heap buffer. -/
structure Array3 where
  rows : ℕ
  cols : ℕ
  bands : ℕ
  data : ℕ → ℕ → ℕ → Option ℝ

/-- Line 195 / 203: the slice assignment writing a whole band plane,
aster_array[:, :, k] = v. -/
def writeSlot (arr : Array3) (k : ℕ) (v : ℕ → ℕ → Option ℝ) : Array3 :=
  { arr with data := fun i j b => if b = k then v i j else arr.data i j b }

/-- Lines 139-142: the band-axis length of the allocated output array,
np.expand_dims(destination, 2).repeat(n, 2) with n = 15 when
return_radiance and n = 10 otherwise. -/
def numOutputBands (return_radiance : Bool) : ℕ :=
  if return_radiance then 15 else 10

/-- What process_aster_dataset reads from the opened scene: the band
labels of the ImageData sub-datasets (line 159-163), the GAIN metadata
pairs as parsed on line 147, solar_direction[1], the corner pairs of
lines 150-151 already reversed to (lon, lat), each band's native shape,
the reprojection oracle, and the CALENDARDATE string. -/
structure Scene where
  rasters : List String
  gains : List (String × String)
  solarElevation : ℝ
  ulLon : ℝ
  ulLat : ℝ
  lrLon : ℝ
  lrLat : ℝ
  srcShape : String → ℕ × ℕ
  reproj : String → Affine6 → (ℕ → ℕ → Option ℚ) → ℕ → ℕ → Option ℚ
  calendardate : String

/-- Lines 147-148: the GAIN metadata dict, with bands "10" to "14"
unconditionally overwritten to "NOR" before any use; none is a
KeyError for a band without a metadata entry. -/
def gain_dict (gains : List (String × String)) (b : String) : Option String :=
  if b ∈ ["10", "11", "12", "13", "14"] then some "NOR" else gains.lookup b

/-- Line 176: the source affine transform of one band,
from_bounds(ul[0], lr[1], lr[0], ul[1], src_shape[1], src_shape[0]). -/
noncomputable def srcTransformOf (sc : Scene) (b : String) : Affine6 :=
  from_bounds sc.ulLon sc.lrLat sc.lrLon sc.ulLat (sc.srcShape b).2 (sc.srcShape b).1

/-- Line 190: np.ma.masked_equal(dst, 0).filled(np.nan) at one pixel;
an exact-zero value becomes NaN, everything else is kept. -/
def maskZero (v : Option ℚ) : Option ℚ := if v = some 0 then none else v

/-- Lines 190-191 at one pixel: mask exact zero to NaN, then radiance =
(value - 1) * coefficient; NaN (in the pixel or in the coefficient)
propagates. -/
noncomputable def radPix (c : Option ℝ) (v : Option ℚ) : Option ℝ :=
  match maskZero v, c with
  | some q, some cc => some (((q : ℝ) - 1) * cc)
  | _, _ => none

/-- Lines 161-203, one iteration of the band loop: look up the band's
output index and gain, copy the destination buffer, reproject into the
copy, mask and scale, then either write radiance into the band's output
slot, or in reflectance mode write reflectance when the band is among
the first 10 of band_index (raising a KeyError for band "3B", which
has no irradiance entry), leaving the slot untouched otherwise. -/
noncomputable def processBand (sc : Scene) (destId : ℕ) (d : ℝ) (return_radiance : Bool)
    (acc : Array3 × Heap) (band_str : String) : Except String (Array3 × Heap) :=
  match index_dict band_str with
  | none => .error ("KeyError: index " ++ band_str)
  | some index =>
  match gain_dict sc.gains band_str with
  | none => .error ("KeyError: gain " ++ band_str)
  | some gain =>
    let arr := acc.1
    let h := acc.2
    let alloc1 := h.alloc (h.mem destId)
    let dstId := alloc1.1
    let h1 := alloc1.2.write dstId
      (sc.reproj band_str (srcTransformOf sc band_str) (alloc1.2.mem dstId))
    match ucc_dict band_str gain with
    | none => .error ("KeyError: ucc " ++ band_str)
    | some c =>
      let dstv : ℕ → ℕ → Option ℝ := fun i j => radPix c (h1.mem dstId i j)
      if return_radiance then
        .ok (writeSlot arr index dstv, h1)
      else
        if band_str ∈ band_index.take 10 then
          match irradiance_dict band_str with
          | none => .error ("KeyError: irradiance " ++ band_str)
          | some irr =>
            .ok (writeSlot arr index
              (fun i j => (dstv i j).map (fun x =>
                (Real.pi * x * d ^ 2) /
                  (irr * Real.sin (deg2rad sc.solarElevation)))), h1)
        else
          .ok (arr, h1)

/-- process_aster_dataset (lines 52-205).  The caller's destination
buffer lives in the heap at destId with shape rows x cols; the output
array is allocated by replicating its contents along a band axis of
numOutputBands slots, the day-of-year and Earth-Sun distance are
computed once, and the band loop folds over the scene's rasters. -/
noncomputable def processScene (sc : Scene) (destId rows cols : ℕ) (h : Heap)
    (return_radiance : Bool) : Except String (Array3 × Heap) :=
  let aster_array : Array3 :=
    ⟨rows, cols, numOutputBands return_radiance,
      fun i j _ => (h.mem destId i j).map (fun q => (q : ℝ))⟩
  match doyOfCalendarDate sc.calendardate with
  | none => .error "ValueError: CALENDARDATE"
  | some doy =>
    sc.rasters.foldlM (processBand sc destId (earthSunDistance doy) return_radiance)
      (aster_array, h)

/-- Observation of a finished conversion: the output value at pixel
(i, j) of band slot k, none when the conversion raised. -/
def outAt (r : Except String (Array3 × Heap)) (i j k : ℕ) : Option (Option ℝ) :=
  match r with
  | .ok p => some (p.1.data i j k)
  | .error _ => none

/-- Observation of a finished conversion: the output array's
(rows, cols, bands) shape, none when the conversion raised. -/
def outDims (r : Except String (Array3 × Heap)) : Option (ℕ × ℕ × ℕ) :=
  match r with
  | .ok p => some (p.1.rows, p.1.cols, p.1.bands)
  | .error _ => none

/-- Observation of a finished conversion: the final contents of heap
buffer bid at pixel (i, j), none when the conversion raised. -/
def memAfter (r : Except String (Array3 × Heap)) (bid i j : ℕ) : Option (Option ℚ) :=
  match r with
  | .ok p => some (p.2.mem bid i j)
  | .error _ => none

/-- The conditions under which one band's loop iteration raises no
KeyError: its label is in the index table, its gain is present (or
defaulted) and is a table column, and, in reflectance mode, a band
among the first 10 of band_index has an irradiance entry. -/
def bandOK (sc : Scene) (rr : Bool) (b : String) : Bool :=
  (index_dict b).isSome &&
    (match gain_dict sc.gains b with
     | some g => (ucc_dict b g).isSome
     | none => false) &&
    (rr || !(decide (b ∈ band_index.take 10)) || (irradiance_dict b).isSome)

/-- The conditions under which the whole conversion raises nothing:
the date is well-formed and every band of the scene passes bandOK. -/
def sceneOK (sc : Scene) (rr : Bool) : Bool :=
  (doyOfCalendarDate sc.calendardate).isSome && sc.rasters.all (bandOK sc rr)

/-- A 1-buffer heap whose destination buffer (id 0) holds the constant
fill value 3 at every pixel. -/
def heap0 : Heap := ⟨1, fun _ _ _ => some 3⟩

/-- A well-formed reflectance-mode scene: bands "2" and "10", an
explicit HGH gain for band "2", every reprojected pixel equal to 9. -/
noncomputable def sceneR : Scene :=
  { rasters := ["2", "10"]
    gains := [("2", "HGH")]
    solarElevation := 60
    ulLon := -54
    ulLat := -20
    lrLon := -53
    lrLat := -21
    srcShape := fun _ => (700, 800)
    reproj := fun _ _ _ _ _ => some 9
    calendardate := "20170615" }

/-- A radiance-mode scene whose band "1" sits at the LG2 gain, where
the coefficient table holds NaN; band "2" is at HGH. -/
noncomputable def sceneA : Scene :=
  { sceneR with
    rasters := ["1", "2"]
    gains := [("1", "LG2"), ("2", "HGH")]
    reproj := fun _ _ _ _ _ => some 7 }

/-- A scene whose reprojected pixels are all exactly 0 (no data). -/
noncomputable def sceneZ : Scene :=
  { sceneR with
    rasters := ["4"]
    gains := [("4", "NOR")]
    reproj := fun _ _ _ _ _ => some 0 }

/-- A scene carrying the 3B ImageData sub-dataset with its gain
reported as NOR. -/
noncomputable def scene3B : Scene :=
  { sceneR with
    rasters := ["3B"]
    gains := [("3B", "NOR")] }

/-- A scene carrying band "1" at the LG2 gain (undefined coefficient)
together with the 3B sub-dataset. -/
noncomputable def scene3B8 : Scene :=
  { sceneR with
    rasters := ["1", "3B"]
    gains := [("1", "LG2"), ("3B", "NOR")] }

/-- A scene with degenerate corner coordinates: the upper-left corner
coincides with the lower-right corner. -/
noncomputable def sceneDeg : Scene :=
  { sceneR with
    rasters := ["1"]
    gains := [("1", "HGH")]
    ulLon := 10
    ulLat := 10
    lrLon := 10
    lrLat := 10 }

/-- Replace a scene's corner coordinates. -/
noncomputable def setCorners (sc : Scene) (uLon uLat lLon lLat : ℝ) : Scene :=
  { sc with ulLon := uLon, ulLat := uLat, lrLon := lLon, lrLat := lLat }

/-- The radiance plane a band's loop iteration computes on lines
190-191, as a function of the destination-buffer contents D the band's
dst copy starts from: reproject, mask exact zeros, scale by the
coefficient. -/
noncomputable def bandDst (sc : Scene) (D : ℕ → ℕ → Option ℚ) (b g : String)
    (i j : ℕ) : Option ℝ :=
  radPix ((ucc_dict b g).getD none) (sc.reproj b (srcTransformOf sc b) D i j)

theorem except_bind_ok {ε α β : Type} (a : α) (f : α → Except ε β) :
    (Except.ok a >>= f) = f a := rfl

theorem except_bind_error {ε α β : Type} (e : ε) (f : α → Except ε β) :
    ((Except.error e : Except ε α) >>= f) = Except.error e := rfl

theorem index_dict_get (b : String) (k : ℕ) (hb : index_dict b = some k) :
    band_index.get? k = some b := by
  unfold index_dict at hb
  split at hb <;> simp_all <;> subst hb <;> rfl

theorem index_dict_inj {b1 b2 : String} {k : ℕ} (h1 : index_dict b1 = some k)
    (h2 : index_dict b2 = some k) : b1 = b2 := by
  have g1 := index_dict_get b1 k h1
  have g2 := index_dict_get b2 k h2
  rw [g1] at g2
  exact Option.some_injective _ g2

theorem alloc_write_inv {h : Heap} {destId : ℕ} (v w : ℕ → ℕ → Option ℚ)
    (hlt : destId < h.next) :
    ((h.alloc v).2.write (h.alloc v).1 w).mem destId = h.mem destId ∧
      destId < ((h.alloc v).2.write (h.alloc v).1 w).next := by
  refine ⟨?_, ?_⟩
  · simp [Heap.alloc, Heap.write, Nat.ne_of_lt hlt]
  · simp [Heap.alloc, Heap.write]
    omega

theorem alloc_write_read {h : Heap} {destId : ℕ}
    (w : (ℕ → ℕ → Option ℚ) → ℕ → ℕ → Option ℚ) :
    ((h.alloc (h.mem destId)).2.write (h.alloc (h.mem destId)).1
        (w ((h.alloc (h.mem destId)).2.mem (h.alloc (h.mem destId)).1))).mem
      (h.alloc (h.mem destId)).1 = w (h.mem destId) := by
  simp [Heap.alloc, Heap.write]

theorem processBand_ok_inv {sc : Scene} {destId : ℕ} {d : ℝ} {rr : Bool}
    {arr : Array3} {h : Heap} {b : String} {arr1 : Array3} {h1 : Heap}
    (hstep : processBand sc destId d rr (arr, h) b = .ok (arr1, h1))
    (hlt : destId < h.next) :
    h1.mem destId = h.mem destId ∧ destId < h1.next ∧
      arr1.rows = arr.rows ∧ arr1.cols = arr.cols ∧ arr1.bands = arr.bands := by
  unfold processBand at hstep
  split at hstep
  · exact absurd hstep (by simp)
  split at hstep
  · exact absurd hstep (by simp)
  dsimp only at hstep
  split at hstep
  · exact absurd hstep (by simp)
  split at hstep
  · simp only [Except.ok.injEq, Prod.mk.injEq] at hstep
    obtain ⟨harr, hh⟩ := hstep
    subst harr; subst hh
    exact ⟨(alloc_write_inv _ _ hlt).1, (alloc_write_inv _ _ hlt).2, rfl, rfl, rfl⟩
  split at hstep
  · split at hstep
    · exact absurd hstep (by simp)
    · simp only [Except.ok.injEq, Prod.mk.injEq] at hstep
      obtain ⟨harr, hh⟩ := hstep
      subst harr; subst hh
      exact ⟨(alloc_write_inv _ _ hlt).1, (alloc_write_inv _ _ hlt).2, rfl, rfl, rfl⟩
  · simp only [Except.ok.injEq, Prod.mk.injEq] at hstep
    obtain ⟨harr, hh⟩ := hstep
    subst harr; subst hh
    exact ⟨(alloc_write_inv _ _ hlt).1, (alloc_write_inv _ _ hlt).2, rfl, rfl, rfl⟩

theorem processBand_slot_rad {sc : Scene} {destId : ℕ} {d : ℝ}
    {arr : Array3} {h : Heap} {b : String} {arr1 : Array3} {h1 : Heap}
    {k : ℕ} {g : String}
    (hstep : processBand sc destId d true (arr, h) b = .ok (arr1, h1))
    (hidx : index_dict b = some k)
    (hg : gain_dict sc.gains b = some g) :
    ∀ i j, arr1.data i j k = bandDst sc (h.mem destId) b g i j := by
  unfold processBand at hstep
  rw [hidx, hg] at hstep
  dsimp only at hstep
  split at hstep
  · exact absurd hstep (by simp)
  rename_i c hc
  simp only [if_true] at hstep
  simp only [Except.ok.injEq, Prod.mk.injEq] at hstep
  obtain ⟨harr, hh⟩ := hstep
  subst harr
  intro i j
  simp [writeSlot, bandDst, hc, Heap.alloc, Heap.write]

theorem processBand_slot_refl {sc : Scene} {destId : ℕ} {d : ℝ}
    {arr : Array3} {h : Heap} {b : String} {arr1 : Array3} {h1 : Heap}
    {k : ℕ} {g : String} {irr : ℝ}
    (hstep : processBand sc destId d false (arr, h) b = .ok (arr1, h1))
    (hidx : index_dict b = some k)
    (hg : gain_dict sc.gains b = some g)
    (hmem : b ∈ band_index.take 10)
    (hirr : irradiance_dict b = some irr) :
    ∀ i j, arr1.data i j k = (bandDst sc (h.mem destId) b g i j).map
      (fun x => (Real.pi * x * d ^ 2) /
        (irr * Real.sin (deg2rad sc.solarElevation))) := by
  unfold processBand at hstep
  rw [hidx, hg] at hstep
  dsimp only at hstep
  split at hstep
  · exact absurd hstep (by simp)
  rename_i c hc
  rw [if_neg (by simp), if_pos hmem, hirr] at hstep
  simp only [Except.ok.injEq, Prod.mk.injEq] at hstep
  obtain ⟨harr, hh⟩ := hstep
  subst harr
  intro i j
  simp [writeSlot, bandDst, hc, Heap.alloc, Heap.write]

theorem processBand_slot_skip {sc : Scene} {destId : ℕ} {d : ℝ} {rr : Bool}
    {arr : Array3} {h : Heap} {b : String} {arr1 : Array3} {h1 : Heap} {k : ℕ}
    (hstep : processBand sc destId d rr (arr, h) b = .ok (arr1, h1))
    (hk : index_dict b ≠ some k ∨ (rr = false ∧ b ∉ band_index.take 10)) :
    ∀ i j, arr1.data i j k = arr.data i j k := by
  unfold processBand at hstep
  split at hstep
  · exact absurd hstep (by simp)
  rename_i index hidx
  split at hstep
  · exact absurd hstep (by simp)
  rename_i gain hg
  dsimp only at hstep
  split at hstep
  · exact absurd hstep (by simp)
  rename_i c hc
  have hne : ∀ (hrr : rr = true), k ≠ index := by
    intro hrr
    cases hk with
    | inl hno => intro hkk; exact hno (hkk ▸ hidx)
    | inr hpair => exact absurd hrr (by simp [hpair.1])
  split at hstep
  · rename_i hrr
    simp only [Except.ok.injEq, Prod.mk.injEq] at hstep
    obtain ⟨harr, hh⟩ := hstep
    subst harr
    intro i j
    simp [writeSlot, hne hrr]
  · rename_i hrr
    split at hstep
    · rename_i hmem
      split at hstep
      · exact absurd hstep (by simp)
      rename_i irr hirr
      have hne2 : k ≠ index := by
        cases hk with
        | inl hno => intro hkk; exact hno (hkk ▸ hidx)
        | inr hpair => exact absurd hmem hpair.2
      simp only [Except.ok.injEq, Prod.mk.injEq] at hstep
      obtain ⟨harr, hh⟩ := hstep
      subst harr
      intro i j
      simp [writeSlot, hne2]
    · simp only [Except.ok.injEq, Prod.mk.injEq] at hstep
      obtain ⟨harr, hh⟩ := hstep
      subst harr
      intro i j
      rfl

theorem processBand_ok_of_bandOK {sc : Scene} {destId : ℕ} {d : ℝ} {rr : Bool}
    {arr : Array3} {h : Heap} {b : String}
    (hok : bandOK sc rr b = true) :
    ∃ p, processBand sc destId d rr (arr, h) b = .ok p := by
  simp only [bandOK, Bool.and_eq_true] at hok
  obtain ⟨⟨hk, hgain⟩, hrefl⟩ := hok
  unfold processBand
  cases hik : index_dict b with
  | none => rw [hik] at hk; simp at hk
  | some k =>
  cases hgd : gain_dict sc.gains b with
  | none => rw [hgd] at hgain; simp at hgain
  | some g =>
  rw [hgd] at hgain
  change (ucc_dict b g).isSome = true at hgain
  cases hc : ucc_dict b g with
  | none => rw [hc] at hgain; simp at hgain
  | some c =>
  dsimp only
  rw [hc]
  cases rr with
  | true => exact ⟨_, rfl⟩
  | false =>
    simp only [Bool.false_eq_true, if_false]
    split
    · rename_i hmem
      simp only [Bool.or_eq_true] at hrefl
      rcases hrefl with (hrr | hnm) | hirr
      · exact absurd hrr (by simp)
      · simp [hmem] at hnm
      · obtain ⟨irr, hirr⟩ := Option.isSome_iff_exists.mp hirr
        rw [hirr]
        exact ⟨_, rfl⟩
    · exact ⟨_, rfl⟩

theorem fold_inv {sc : Scene} {destId : ℕ} {d : ℝ} {rr : Bool} :
    ∀ (L : List String) (arr : Array3) (h : Heap) (arrF : Array3) (hF : Heap),
      destId < h.next →
      L.foldlM (processBand sc destId d rr) (arr, h) = .ok (arrF, hF) →
      hF.mem destId = h.mem destId ∧ destId < hF.next ∧
        arrF.rows = arr.rows ∧ arrF.cols = arr.cols ∧ arrF.bands = arr.bands := by
  intro L
  induction L with
  | nil =>
    intro arr h arrF hF hlt hfold
    simp only [List.foldlM_nil] at hfold
    obtain ⟨h1, h2⟩ := Prod.mk.injEq _ _ _ _ ▸ Except.ok.inj hfold
    subst h1; subst h2
    exact ⟨rfl, hlt, rfl, rfl, rfl⟩
  | cons b L ih =>
    intro arr h arrF hF hlt hfold
    rw [List.foldlM_cons] at hfold
    cases hstep : processBand sc destId d rr (arr, h) b with
    | error e => rw [hstep, except_bind_error] at hfold; exact absurd hfold (by simp)
    | ok p =>
      obtain ⟨arr1, h1⟩ := p
      rw [hstep, except_bind_ok] at hfold
      have hinv := processBand_ok_inv hstep hlt
      have hrest := ih arr1 h1 arrF hF hinv.2.1 hfold
      exact ⟨hrest.1.trans hinv.1, hrest.2.1,
        hrest.2.2.1.trans hinv.2.2.1, hrest.2.2.2.1.trans hinv.2.2.2.1,
        hrest.2.2.2.2.trans hinv.2.2.2.2⟩

theorem fold_total {sc : Scene} {destId : ℕ} {d : ℝ} {rr : Bool} :
    ∀ (L : List String) (arr : Array3) (h : Heap),
      (∀ b ∈ L, bandOK sc rr b = true) →
      ∃ p, L.foldlM (processBand sc destId d rr) (arr, h) = .ok p := by
  intro L
  induction L with
  | nil => intro arr h _; exact ⟨(arr, h), rfl⟩
  | cons b L ih =>
    intro arr h hall
    obtain ⟨p, hp⟩ :=
      @processBand_ok_of_bandOK sc destId d rr arr h b
        (hall b (List.mem_cons_self b L))
    obtain ⟨arr1, h1⟩ := p
    obtain ⟨pF, hpF⟩ := ih arr1 h1 (fun b' hb' => hall b' (List.mem_cons_of_mem b hb'))
    exact ⟨pF, by rw [List.foldlM_cons, hp, except_bind_ok, hpF]⟩

theorem fold_skip {sc : Scene} {destId : ℕ} {d : ℝ} {rr : Bool} {k : ℕ} :
    ∀ (L : List String) (arr : Array3) (h : Heap) (arrF : Array3) (hF : Heap),
      (∀ b ∈ L, index_dict b ≠ some k ∨ (rr = false ∧ b ∉ band_index.take 10)) →
      L.foldlM (processBand sc destId d rr) (arr, h) = .ok (arrF, hF) →
      ∀ i j, arrF.data i j k = arr.data i j k := by
  intro L
  induction L with
  | nil =>
    intro arr h arrF hF _ hfold i j
    simp only [List.foldlM_nil] at hfold
    obtain ⟨h1, h2⟩ := Prod.mk.injEq _ _ _ _ ▸ Except.ok.inj hfold
    subst h1
    rfl
  | cons b L ih =>
    intro arr h arrF hF hall hfold i j
    rw [List.foldlM_cons] at hfold
    cases hstep : processBand sc destId d rr (arr, h) b with
    | error e => rw [hstep, except_bind_error] at hfold; exact absurd hfold (by simp)
    | ok p =>
      obtain ⟨arr1, h1⟩ := p
      rw [hstep, except_bind_ok] at hfold
      have h1eq := processBand_slot_skip hstep (hall b (List.mem_cons_self b L)) i j
      rw [ih arr1 h1 arrF hF (fun b' hb' => hall b' (List.mem_cons_of_mem b hb')) hfold i j,
        h1eq]

theorem fold_write {sc : Scene} {destId : ℕ} {d : ℝ} {rr : Bool} {k : ℕ}
    {b : String} {D : ℕ → ℕ → Option ℚ} {W : ℕ → ℕ → Option ℝ}
    (hidx : index_dict b = some k)
    (hW : ∀ (arr' : Array3) (h' : Heap) (arr1 : Array3) (h1 : Heap),
        destId < h'.next → h'.mem destId = D →
        processBand sc destId d rr (arr', h') b = .ok (arr1, h1) →
        ∀ i j, arr1.data i j k = W i j) :
    ∀ (L : List String) (arr : Array3) (h : Heap) (arrF : Array3) (hF : Heap),
      destId < h.next → h.mem destId = D →
      b ∈ L →
      L.foldlM (processBand sc destId d rr) (arr, h) = .ok (arrF, hF) →
      ∀ i j, arrF.data i j k = W i j := by
  intro L
  induction L with
  | nil => intro arr h arrF hF _ _ hmem; exact absurd hmem (List.not_mem_nil b)
  | cons b0 L ih =>
    intro arr h arrF hF hlt hD hmem hfold i j
    rw [List.foldlM_cons] at hfold
    cases hstep : processBand sc destId d rr (arr, h) b0 with
    | error e => rw [hstep, except_bind_error] at hfold; exact absurd hfold (by simp)
    | ok p =>
      obtain ⟨arr1, h1⟩ := p
      rw [hstep, except_bind_ok] at hfold
      have hinv := processBand_ok_inv hstep hlt
      by_cases hbL : b ∈ L
      · exact ih arr1 h1 arrF hF hinv.2.1 (hinv.1.trans hD) hbL hfold i j
      · have hb0 : b0 = b := by
          cases List.mem_cons.mp hmem with
          | inl hh => exact hh.symm
          | inr hh => exact absurd hh hbL
        subst hb0
        have hval := hW arr h arr1 h1 hlt hD hstep i j
        have hnone : ∀ b' ∈ L,
            index_dict b' ≠ some k ∨ (rr = false ∧ b' ∉ band_index.take 10) :=
          fun b' hb' => Or.inl (fun hc => hbL (index_dict_inj hc hidx ▸ hb'))
        rw [fold_skip L arr1 h1 arrF hF hnone hfold i j, hval]

theorem processScene_eq_fold {sc : Scene} {destId rows cols : ℕ} {h : Heap}
    {rr : Bool} {doy : ℕ}
    (hdoy : doyOfCalendarDate sc.calendardate = some doy) :
    processScene sc destId rows cols h rr =
      sc.rasters.foldlM (processBand sc destId (earthSunDistance doy) rr)
        (⟨rows, cols, numOutputBands rr,
          fun i j _ => (h.mem destId i j).map (fun q => (q : ℝ))⟩, h) := by
  unfold processScene
  rw [hdoy]

theorem sceneOK_parts {sc : Scene} {rr : Bool} (hok : sceneOK sc rr = true) :
    (∃ doy, doyOfCalendarDate sc.calendardate = some doy) ∧
      ∀ b ∈ sc.rasters, bandOK sc rr b = true := by
  simp only [sceneOK, Bool.and_eq_true, List.all_eq_true] at hok
  exact ⟨Option.isSome_iff_exists.mp hok.1, hok.2⟩

theorem bandOK_gain {sc : Scene} {rr : Bool} {b : String}
    (h : bandOK sc rr b = true) :
    ∃ g, gain_dict sc.gains b = some g ∧ (ucc_dict b g).isSome = true := by
  simp only [bandOK, Bool.and_eq_true] at h
  obtain ⟨⟨_, hg⟩, _⟩ := h
  cases hgd : gain_dict sc.gains b with
  | none => rw [hgd] at hg; simp at hg
  | some g =>
    rw [hgd] at hg
    exact ⟨g, rfl, hg⟩

theorem bandOK_irradiance {sc : Scene} {b : String}
    (h : bandOK sc false b = true) (hmem : b ∈ band_index.take 10) :
    ∃ irr, irradiance_dict b = some irr := by
  simp only [bandOK, Bool.and_eq_true, Bool.or_eq_true] at h
  rcases h.2 with (hrr | hnm) | hirr
  · exact absurd hrr (by simp)
  · simp [hmem] at hnm
  · exact Option.isSome_iff_exists.mp hirr

theorem irradiance_mem_take10 {b : String} {x : ℝ}
    (h : irradiance_dict b = some x) : b ∈ band_index.take 10 := by
  unfold irradiance_dict at h
  split at h <;> first | decide | exact absurd h (by simp)

theorem last5_not_take10 {b : String} (h : b ∈ ["10", "11", "12", "13", "14"]) :
    b ∉ band_index.take 10 := by
  fin_cases h <;> decide

theorem processBand_isOk (sc : Scene) (destId : ℕ) (d : ℝ) (rr : Bool)
    (acc : Array3 × Heap) (b : String) :
    (processBand sc destId d rr acc b).isOk = bandOK sc rr b := by
  obtain ⟨arr, h⟩ := acc
  unfold processBand bandOK
  cases hik : index_dict b with
  | none => simp [Except.isOk, Except.toBool]
  | some k =>
    cases hgd : gain_dict sc.gains b with
    | none => simp [Except.isOk, Except.toBool]
    | some g =>
      dsimp only
      cases hc : ucc_dict b g with
      | none => simp [Except.isOk, Except.toBool]
      | some c =>
        cases rr with
        | true => simp [Except.isOk, Except.toBool]
        | false =>
          dsimp only
          by_cases hmem : b ∈ band_index.take 10
          · cases hirr : irradiance_dict b with
            | none => simp [Except.isOk, Except.toBool, hmem]
            | some irr => simp [Except.isOk, Except.toBool, hmem]
          · simp [Except.isOk, Except.toBool, hmem]

theorem fold_isOk {sc : Scene} {destId : ℕ} {d : ℝ} {rr : Bool} :
    ∀ (L : List String) (acc : Array3 × Heap),
      (L.foldlM (processBand sc destId d rr) acc).isOk = L.all (bandOK sc rr) := by
  intro L
  induction L with
  | nil => intro acc; rfl
  | cons b L ih =>
    intro acc
    rw [List.foldlM_cons, List.all_cons]
    cases hstep : processBand sc destId d rr acc b with
    | error e =>
      have hb := processBand_isOk sc destId d rr acc b
      rw [hstep] at hb
      rw [except_bind_error, ← hb]
      rfl
    | ok p =>
      have hb := processBand_isOk sc destId d rr acc b
      rw [hstep] at hb
      rw [except_bind_ok, ← hb, ih p]
      rfl

theorem processScene_isOk (sc : Scene) (destId rows cols : ℕ) (h : Heap)
    (rr : Bool) :
    (processScene sc destId rows cols h rr).isOk = sceneOK sc rr := by
  cases hdoy : doyOfCalendarDate sc.calendardate with
  | none => simp only [processScene, sceneOK, hdoy]; rfl
  | some doy =>
    simp only [processScene, sceneOK, hdoy, fold_isOk]
    rfl

theorem processScene_slot_rad {sc : Scene} {destId rows cols : ℕ} {h : Heap}
    {b g : String} {k doy : ℕ}
    (hdoy : doyOfCalendarDate sc.calendardate = some doy)
    (hbands : ∀ b2 ∈ sc.rasters, bandOK sc true b2 = true)
    (hlt : destId < h.next)
    (hb : b ∈ sc.rasters)
    (hg : gain_dict sc.gains b = some g)
    (hidx : index_dict b = some k) :
    ∀ i j, outAt (processScene sc destId rows cols h true) i j k =
      some (bandDst sc (h.mem destId) b g i j) := by
  intro i j
  rw [processScene_eq_fold hdoy]
  obtain ⟨⟨arrF, hF⟩, hfold⟩ := fold_total sc.rasters _ h hbands
  rw [hfold]
  simp only [outAt]
  have hW : ∀ (arr2 : Array3) (h2 : Heap) (arr1 : Array3) (h1 : Heap),
      destId < h2.next → h2.mem destId = h.mem destId →
      processBand sc destId (earthSunDistance doy) true (arr2, h2) b = .ok (arr1, h1) →
      ∀ i2 j2, arr1.data i2 j2 k = bandDst sc (h.mem destId) b g i2 j2 := by
    intro arr2 h2 arr1 h1 _ hD hstep i2 j2
    rw [processBand_slot_rad hstep hidx hg i2 j2, hD]
  rw [fold_write hidx hW sc.rasters _ h arrF hF hlt rfl hb hfold i j]

theorem processScene_slot_refl {sc : Scene} {destId rows cols : ℕ} {h : Heap}
    {b g : String} {irr : ℝ} {k doy : ℕ}
    (hdoy : doyOfCalendarDate sc.calendardate = some doy)
    (hbands : ∀ b2 ∈ sc.rasters, bandOK sc false b2 = true)
    (hlt : destId < h.next)
    (hb : b ∈ sc.rasters)
    (hg : gain_dict sc.gains b = some g)
    (hmem : b ∈ band_index.take 10)
    (hirr : irradiance_dict b = some irr)
    (hidx : index_dict b = some k) :
    ∀ i j, outAt (processScene sc destId rows cols h false) i j k =
      some ((bandDst sc (h.mem destId) b g i j).map (fun x =>
        (Real.pi * x * (earthSunDistance doy) ^ 2) /
          (irr * Real.sin (deg2rad sc.solarElevation)))) := by
  intro i j
  rw [processScene_eq_fold hdoy]
  obtain ⟨⟨arrF, hF⟩, hfold⟩ := fold_total sc.rasters _ h hbands
  rw [hfold]
  simp only [outAt]
  have hW : ∀ (arr2 : Array3) (h2 : Heap) (arr1 : Array3) (h1 : Heap),
      destId < h2.next → h2.mem destId = h.mem destId →
      processBand sc destId (earthSunDistance doy) false (arr2, h2) b = .ok (arr1, h1) →
      ∀ i2 j2, arr1.data i2 j2 k = (bandDst sc (h.mem destId) b g i2 j2).map (fun x =>
        (Real.pi * x * (earthSunDistance doy) ^ 2) /
          (irr * Real.sin (deg2rad sc.solarElevation))) := by
    intro arr2 h2 arr1 h1 _ hD hstep i2 j2
    rw [processBand_slot_refl hstep hidx hg hmem hirr i2 j2, hD]
  rw [fold_write hidx hW sc.rasters _ h arrF hF hlt rfl hb hfold i j]

theorem processScene_slot_untouched {sc : Scene} {destId rows cols : ℕ}
    {h : Heap} {rr : Bool} {k doy : ℕ}
    (hdoy : doyOfCalendarDate sc.calendardate = some doy)
    (hbands : ∀ b2 ∈ sc.rasters, bandOK sc rr b2 = true)
    (hall : ∀ b2 ∈ sc.rasters,
      index_dict b2 ≠ some k ∨ (rr = false ∧ b2 ∉ band_index.take 10)) :
    ∀ i j, outAt (processScene sc destId rows cols h rr) i j k =
      some ((h.mem destId i j).map (fun x => (x : ℝ))) := by
  intro i j
  rw [processScene_eq_fold hdoy]
  obtain ⟨⟨arrF, hF⟩, hfold⟩ := fold_total sc.rasters _ h hbands
  rw [hfold]
  simp only [outAt]
  rw [fold_skip sc.rasters _ h arrF hF hall hfold i j]

theorem radPix_none_coeff (v : Option ℚ) : radPix none v = none := by
  unfold radPix
  cases maskZero v <;> rfl

theorem ucc_dict_mem {b g : String} {c : Option ℝ} (h : ucc_dict b g = some c) :
    b ∈ band_index := by
  unfold ucc_dict at h
  split at h
  · rename_i hcond
    exact hcond.1
  · exact absurd h (by simp)

theorem mem_take10_of_not_last5 {b : String} (hmem : b ∈ band_index)
    (h5 : b ∉ ["10", "11", "12", "13", "14"]) : b ∈ band_index.take 10 := by
  fin_cases hmem <;> first | decide | (exact absurd (by decide) h5)

theorem nan_coeff_mem_take10 {sc : Scene} {b g : String}
    (hg : gain_dict sc.gains b = some g) (hc : ucc_dict b g = some none) :
    b ∈ band_index.take 10 := by
  by_cases h5 : b ∈ ["10", "11", "12", "13", "14"]
  · have hnor : gain_dict sc.gains b = some "NOR" := by
      unfold gain_dict
      rw [if_pos h5]
    rw [hg] at hnor
    have hgeq : g = "NOR" := Option.some_injective _ hnor
    subst hgeq
    fin_cases h5 <;> exact absurd hc (by decide)
  · exact mem_take10_of_not_last5 (ucc_dict_mem hc) h5

/-- Claim C1 counterexample: at a concrete reflectance-mode invocation the
returned band axis has 10 slots, not the 9 the claim states (lines 139-142
allocate repeat(10, 2) when return_radiance is false). -/
theorem C1_counterexample :
    outDims (processScene sceneR 0 2 3 heap0 false) = some (2, 3, 10) ∧
      (10 : ℕ) ≠ 9 :=
  ⟨rfl, by decide⟩

/-- Claim C1 (amended): for every completing invocation the output array is
3-dimensional with shape rows x columns x bands, where the band axis has
exactly 10 slots in reflectance mode (return_radiance false; only the 9
irradiance-bearing bands among the first 10 slots are ever computed) and
exactly 15 slots in radiance mode (return_radiance true). -/
theorem C1_output_shape (sc : Scene) (destId rows cols : ℕ) (h : Heap) (rr : Bool)
    (hok : sceneOK sc rr = true) (hlt : destId < h.next) :
    outDims (processScene sc destId rows cols h rr) =
      some (rows, cols, if rr then 15 else 10) := by
  obtain ⟨⟨doy, hdoy⟩, hbands⟩ := sceneOK_parts hok
  rw [processScene_eq_fold hdoy]
  obtain ⟨⟨arrF, hF⟩, hfold⟩ := fold_total sc.rasters _ h hbands
  rw [hfold]
  have hinv := fold_inv sc.rasters _ h arrF hF hlt hfold
  simp only [outDims]
  rw [hinv.2.2.1, hinv.2.2.2.1, hinv.2.2.2.2]
  rfl

/-- Witness for the amended Claim C1 theorem at a concrete scene. -/
theorem C1_witness :
    (sceneOK sceneR false = true ∧ 0 < heap0.next) ∧
      outDims (processScene sceneR 0 2 3 heap0 false) =
        some (2, 3, if false then 15 else 10) :=
  ⟨⟨by decide, by decide⟩,
    C1_output_shape sceneR 0 2 3 heap0 false (by decide) (by decide)⟩

/-- Claim C2 counterexample: a reflectance-mode scene whose raster list
holds band "3B" (a band with no irradiance entry) does not leave that slot
untouched and complete: line 201's irradiance lookup raises a KeyError and
the conversion aborts. -/
theorem C2_counterexample :
    irradiance_dict "3B" = none ∧
      processScene scene3B 0 1 1 heap0 false = .error "KeyError: irradiance 3B" :=
  ⟨rfl, rfl⟩

/-- Claim C2 (amended): in reflectance mode the 5 thermal bands "10"-"14"
(which have no irradiance entry) write nothing: their output slot keeps
the caller-supplied fill value replicated from the destination buffer and
the conversion completes; but band "3B", the sixth band without an
irradiance entry, raises a KeyError when processed in reflectance mode
instead of being skipped. -/
theorem C2_thermal_slots_keep_fill (sc : Scene) (destId rows cols : ℕ) (h : Heap)
    (b : String) (k i j : ℕ)
    (hok : sceneOK sc false = true)
    (hb : b ∈ sc.rasters)
    (hb5 : b ∈ ["10", "11", "12", "13", "14"])
    (hidx : index_dict b = some k) :
    outAt (processScene sc destId rows cols h false) i j k =
      some ((h.mem destId i j).map (fun x => (x : ℝ))) := by
  obtain ⟨⟨doy, hdoy⟩, hbands⟩ := sceneOK_parts hok
  refine processScene_slot_untouched hdoy hbands ?_ i j
  intro b2 hb2
  by_cases hik : index_dict b2 = some k
  · right
    refine ⟨rfl, ?_⟩
    rw [index_dict_inj hik hidx]
    exact last5_not_take10 hb5
  · exact Or.inl hik

/-- Witness for the amended Claim C2 theorem at a concrete scene. -/
theorem C2_witness :
    (sceneOK sceneR false = true ∧ "10" ∈ sceneR.rasters) ∧
      outAt (processScene sceneR 0 2 3 heap0 false) 0 0 10 =
        some ((heap0.mem 0 0 0).map (fun x => (x : ℝ))) :=
  ⟨⟨by decide, by decide⟩,
    C2_thermal_slots_keep_fill sceneR 0 2 3 heap0 "10" 10 0 0 (by decide)
      (by decide) (by decide) rfl⟩

/-- Claim C3: for every band with a defined coefficient for its gain and
every reprojected pixel whose value is not exactly 0, the radiance output
at that pixel equals (raw - 1) * coefficient(band, gain). -/
theorem C3_radiance_formula (sc : Scene) (destId rows cols : ℕ) (h : Heap)
    (b g : String) (c : ℝ) (k i j : ℕ) (q : ℚ)
    (hok : sceneOK sc true = true) (hlt : destId < h.next)
    (hb : b ∈ sc.rasters)
    (hg : gain_dict sc.gains b = some g)
    (hc : ucc_dict b g = some (some c))
    (hidx : index_dict b = some k)
    (hraw : sc.reproj b (srcTransformOf sc b) (h.mem destId) i j = some q)
    (hq : q ≠ 0) :
    outAt (processScene sc destId rows cols h true) i j k =
      some (some (((q : ℝ) - 1) * c)) := by
  obtain ⟨⟨doy, hdoy⟩, hbands⟩ := sceneOK_parts hok
  rw [processScene_slot_rad hdoy hbands hlt hb hg hidx i j]
  simp [bandDst, hc, hraw, radPix, maskZero, hq]

/-- Witness for the Claim C3 theorem at a concrete scene. -/
theorem C3_witness :
    ((7 : ℚ) ≠ 0 ∧ sceneOK sceneA true = true) ∧
      outAt (processScene sceneA 0 2 3 heap0 true) 0 0 1 =
        some (some ((((7 : ℚ) : ℝ) - 1) * 0.708)) :=
  ⟨⟨by decide, by decide⟩,
    C3_radiance_formula sceneA 0 2 3 heap0 "2" "HGH" 0.708 1 0 0 7 (by decide)
      (by decide) (by decide) rfl rfl rfl rfl (by decide)⟩

/-- Claim C4: a reprojected pixel equal to exactly 0 is masked to NaN
before the calibration scaling, so the radiance output (and, for an
irradiance-bearing band in reflectance mode, the reflectance output) at
that pixel is NaN regardless of the coefficient value. -/
theorem C4_zero_pixel_nan (sc : Scene) (destId rows cols : ℕ) (h : Heap)
    (rr : Bool) (b : String) (k i j : ℕ)
    (hok : sceneOK sc rr = true) (hlt : destId < h.next)
    (hb : b ∈ sc.rasters)
    (hidx : index_dict b = some k)
    (hraw : sc.reproj b (srcTransformOf sc b) (h.mem destId) i j = some 0)
    (hmode : rr = true ∨ irradiance_dict b ≠ none) :
    outAt (processScene sc destId rows cols h rr) i j k = some none := by
  obtain ⟨⟨doy, hdoy⟩, hbands⟩ := sceneOK_parts hok
  obtain ⟨g, hg, _⟩ := bandOK_gain (hbands b hb)
  cases rr with
  | true =>
    rw [processScene_slot_rad hdoy hbands hlt hb hg hidx i j]
    simp [bandDst, hraw, radPix, maskZero]
  | false =>
    rcases hmode with hrr | hirr
    · exact absurd hrr (by simp)
    · obtain ⟨irr, hirr2⟩ := Option.ne_none_iff_exists'.mp hirr
      have hmem := irradiance_mem_take10 hirr2
      rw [processScene_slot_refl hdoy hbands hlt hb hg hmem hirr2 hidx i j]
      simp [bandDst, hraw, radPix, maskZero]

/-- Witness for the Claim C4 theorem at a concrete scene. -/
theorem C4_witness :
    (sceneOK sceneZ true = true ∧
      sceneZ.reproj "4" (srcTransformOf sceneZ "4") (heap0.mem 0) 0 0 = some 0) ∧
      outAt (processScene sceneZ 0 2 3 heap0 true) 0 0 4 = some none :=
  ⟨⟨by decide, rfl⟩,
    C4_zero_pixel_nan sceneZ 0 2 3 heap0 true "4" 4 0 0 (by decide) (by decide)
      (by decide) rfl rfl (Or.inl rfl)⟩

/-- Claim C5: in reflectance mode, for every band with an irradiance
entry, the output at each pixel equals pi * radiance * d ^ 2 /
(irradiance(band) * sin(radians(solarElevation))), where the radiance
plane is the masked and scaled reprojection (bandDst) and
d = earthSunDistance(dayOfYear) = 1 - 0.01672 * cos(radians(0.9856 *
(dayOfYear - 4))) is computed once per scene from the acquisition date's
day-of-year. -/
theorem C5_reflectance_formula (sc : Scene) (destId rows cols : ℕ) (h : Heap)
    (b g : String) (irr : ℝ) (k i j doy : ℕ)
    (hok : sceneOK sc false = true) (hlt : destId < h.next)
    (hb : b ∈ sc.rasters)
    (hg : gain_dict sc.gains b = some g)
    (hirr : irradiance_dict b = some irr)
    (hidx : index_dict b = some k)
    (hdoy : doyOfCalendarDate sc.calendardate = some doy) :
    outAt (processScene sc destId rows cols h false) i j k =
      some ((bandDst sc (h.mem destId) b g i j).map (fun x =>
        (Real.pi * x * (earthSunDistance doy) ^ 2) /
          (irr * Real.sin (deg2rad sc.solarElevation)))) := by
  obtain ⟨_, hbands⟩ := sceneOK_parts hok
  exact processScene_slot_refl hdoy hbands hlt hb hg
    (irradiance_mem_take10 hirr) hirr hidx i j

/-- Witness for the Claim C5 theorem at a concrete scene. -/
theorem C5_witness :
    (sceneOK sceneR false = true ∧ irradiance_dict "2" = some 1555.74 ∧
      doyOfCalendarDate sceneR.calendardate = some 166) ∧
      outAt (processScene sceneR 0 2 3 heap0 false) 0 0 1 =
        some ((bandDst sceneR (heap0.mem 0) "2" "HGH" 0 0).map (fun x =>
          (Real.pi * x * (earthSunDistance 166) ^ 2) /
            (1555.74 * Real.sin (deg2rad sceneR.solarElevation)))) :=
  ⟨⟨by decide, rfl, by decide⟩,
    C5_reflectance_formula sceneR 0 2 3 heap0 "2" "HGH" 1555.74 1 0 0 166
      (by decide) (by decide) (by decide) rfl rfl rfl (by decide)⟩

/-- Claim C6: for bands "10" through "14" the gain used for coefficient
lookup is NOR whatever the metadata's gain entries say (line 148 forces it
before any lookup), and the coefficient lookup for them neither raises a
KeyError nor finds a NaN (not-applicable) entry. -/
theorem C6_thermal_gain_normal (gains : List (String × String)) (b : String)
    (hb : b ∈ ["10", "11", "12", "13", "14"]) :
    gain_dict gains b = some "NOR" ∧ ucc_dict b "NOR" ≠ none ∧
      ucc_dict b "NOR" ≠ some none := by
  refine ⟨?_, ?_, ?_⟩
  · unfold gain_dict
    rw [if_pos hb]
  · fin_cases hb <;> decide
  · fin_cases hb <;> decide

/-- Witness for the Claim C6 theorem: a metadata gain list that even
reports a different gain for band "10" is still overridden to NOR. -/
theorem C6_witness :
    ("10" ∈ ["10", "11", "12", "13", "14"]) ∧
      (gain_dict [("10", "HGH")] "10" = some "NOR" ∧ ucc_dict "10" "NOR" ≠ none ∧
        ucc_dict "10" "NOR" ≠ some none) :=
  ⟨by decide, C6_thermal_gain_normal [("10", "HGH")] "10" (by decide)⟩

/-- Claim C7 counterexample: a scene whose upper-left corner coincides
with its lower-right corner (so the upper-left is not strictly north and
west of it) is not rejected: the conversion completes with no
configuration error, and its band "1" is processed, the slot holding
computed radiance rather than fill. -/
theorem C7_counterexample :
    (sceneDeg.ulLon = sceneDeg.lrLon ∧ sceneDeg.ulLat = sceneDeg.lrLat) ∧
      sceneDeg.rasters = ["1"] ∧
      (processScene sceneDeg 0 1 1 heap0 true).isOk = true ∧
      outAt (processScene sceneDeg 0 1 1 heap0 true) 0 0 0 =
        some (some ((((9 : ℚ) : ℝ) - 1) * 0.676)) :=
  ⟨⟨rfl, rfl⟩, rfl, rfl, rfl⟩

/-- Claim C7 (amended): the code never validates the corner coordinates:
whether the conversion succeeds or aborts is entirely independent of
them, so degenerate corners (upper-left not strictly north and west of
lower-right) are processed exactly like valid ones and no configuration
error is signalled before, or during, band processing. -/
theorem C7_no_corner_check (sc : Scene) (destId rows cols : ℕ) (h : Heap)
    (rr : Bool) (uLon uLat lLon lLat : ℝ) :
    (processScene (setCorners sc uLon uLat lLon lLat) destId rows cols h rr).isOk =
      (processScene sc destId rows cols h rr).isOk := by
  rw [processScene_isOk, processScene_isOk]
  rfl

/-- Claim C8 counterexample: a reflectance-mode scene containing band "1"
at gain LG2 (an undefined, NaN, coefficient) together with band "3B"
aborts with the "3B" irradiance KeyError, so the presence of a band with
an undefined coefficient does not imply the scene conversion completes
with all remaining bands written. -/
theorem C8_counterexample :
    ("1" ∈ scene3B8.rasters ∧ gain_dict scene3B8.gains "1" = some "LG2" ∧
      ucc_dict "1" "LG2" = some none) ∧
      processScene scene3B8 0 1 1 heap0 false = .error "KeyError: irradiance 3B" :=
  ⟨⟨by decide, rfl, rfl⟩, rfl⟩

/-- Claim C8 (amended): a band whose coefficient entry is NaN for its
gain does not itself abort the conversion: whenever the scene passes the
fatal checks (which, in reflectance mode, excludes scenes carrying band
"3B"), the conversion completes, the NaN-coefficient band's output slot
is NaN at every pixel, and every other band is still processed and
written to its own output slot with its usual radiance or reflectance
plane. -/
theorem C8_nan_coefficient_not_fatal (sc : Scene) (destId rows cols : ℕ)
    (h : Heap) (rr : Bool) (b g : String) (k i j : ℕ)
    (hok : sceneOK sc rr = true) (hlt : destId < h.next)
    (hb : b ∈ sc.rasters)
    (hg : gain_dict sc.gains b = some g)
    (hc : ucc_dict b g = some none)
    (hidx : index_dict b = some k) :
    (processScene sc destId rows cols h rr).isOk = true ∧
      outAt (processScene sc destId rows cols h rr) i j k = some none ∧
      (∀ b2 g2 k2, b2 ∈ sc.rasters → gain_dict sc.gains b2 = some g2 →
        index_dict b2 = some k2 →
        (rr = true →
          outAt (processScene sc destId rows cols h rr) i j k2 =
            some (bandDst sc (h.mem destId) b2 g2 i j)) ∧
        (∀ irr2 doy, rr = false → irradiance_dict b2 = some irr2 →
          doyOfCalendarDate sc.calendardate = some doy →
          outAt (processScene sc destId rows cols h rr) i j k2 =
            some ((bandDst sc (h.mem destId) b2 g2 i j).map (fun x =>
              (Real.pi * x * (earthSunDistance doy) ^ 2) /
                (irr2 * Real.sin (deg2rad sc.solarElevation)))))) := by
  obtain ⟨⟨doy, hdoy⟩, hbands⟩ := sceneOK_parts hok
  refine ⟨by rw [processScene_isOk]; exact hok, ?_, ?_⟩
  · cases rr with
    | true =>
      rw [processScene_slot_rad hdoy hbands hlt hb hg hidx i j]
      simp [bandDst, hc, radPix_none_coeff]
    | false =>
      have hmem := nan_coeff_mem_take10 hg hc
      obtain ⟨irr, hirr⟩ := bandOK_irradiance (hbands b hb) hmem
      rw [processScene_slot_refl hdoy hbands hlt hb hg hmem hirr hidx i j]
      simp [bandDst, hc, radPix_none_coeff]
  · intro b2 g2 k2 hb2 hg2 hidx2
    constructor
    · intro hrr
      subst hrr
      exact processScene_slot_rad hdoy hbands hlt hb2 hg2 hidx2 i j
    · intro irr2 doy2 hrr hirr2 hdoy2
      subst hrr
      exact processScene_slot_refl hdoy2 hbands hlt hb2 hg2
        (irradiance_mem_take10 hirr2) hirr2 hidx2 i j

/-- Witness for the amended Claim C8 theorem at a concrete radiance-mode
scene: band "1" at gain LG2 yields a NaN slot while band "2" is written. -/
theorem C8_witness :
    (sceneOK sceneA true = true ∧ ucc_dict "1" "LG2" = some none) ∧
      (processScene sceneA 0 2 3 heap0 true).isOk = true ∧
      outAt (processScene sceneA 0 2 3 heap0 true) 0 0 0 = some none ∧
      outAt (processScene sceneA 0 2 3 heap0 true) 0 0 1 =
        some (bandDst sceneA (heap0.mem 0) "2" "HGH" 0 0) := by
  have hmain := C8_nan_coefficient_not_fatal sceneA 0 2 3 heap0 true "1" "LG2" 0 0 0
    (by decide) (by decide) (by decide) rfl rfl rfl
  exact ⟨⟨by decide, rfl⟩, hmain.1, hmain.2.1,
    (hmain.2.2 "2" "HGH" 1 (by decide) rfl rfl).1 rfl⟩

/-- Claim C9: the day-of-year computed from the 8-digit calendar date
string "20170615" equals 166. -/
theorem C9_day_of_year : doyOfCalendarDate "20170615" = some 166 := by decide

/-- Claim C10: a completing conversion leaves the caller's destination
buffer unchanged: the output array starts from a replicated copy of it
and each band's reprojection writes into a freshly allocated per-band
copy, so the final heap contents at the destination's id equal the
initial ones at every pixel. -/
theorem C10_destination_unchanged (sc : Scene) (destId rows cols : ℕ) (h : Heap)
    (rr : Bool) (i j : ℕ)
    (hok : sceneOK sc rr = true) (hlt : destId < h.next) :
    memAfter (processScene sc destId rows cols h rr) destId i j =
      some (h.mem destId i j) := by
  obtain ⟨⟨doy, hdoy⟩, hbands⟩ := sceneOK_parts hok
  rw [processScene_eq_fold hdoy]
  obtain ⟨⟨arrF, hF⟩, hfold⟩ := fold_total sc.rasters _ h hbands
  rw [hfold]
  have hinv := fold_inv sc.rasters _ h arrF hF hlt hfold
  simp only [memAfter]
  rw [hinv.1]

/-- Witness for the Claim C10 theorem at a concrete scene. -/
theorem C10_witness :
    (sceneOK sceneR false = true ∧ 0 < heap0.next) ∧
      memAfter (processScene sceneR 0 2 3 heap0 false) 0 0 0 =
        some (heap0.mem 0 0 0) :=
  ⟨⟨by decide, by decide⟩,
    C10_destination_unchanged sceneR 0 2 3 heap0 false 0 0 (by decide) (by decide)⟩
